import Mathlib

/-!
Verification of the PyDRP partitioning core (`src/src.py`).

The development shallowly embeds the data-splitting machinery of the
repository: `Splitter.get_partitions` (built on `numpy.array_split` and a
seeded permutation), `Splitter.get_folds` (rejection sampling of a
derangement), `Splitter.__getitem__` (materialisation of train /
validation / test subsets with the test-side exclusion list), the
`DatasetManager` constructor and `get_partition`, the `get_drugs`
reconciliation step, and the fitted-state precondition checks.

Randomness is modelled by quantifying over the draws: a seeded
`rng.permutation(n)` call is an arbitrary list that is a permutation of
`List.range n`, and the rejection loop of `get_folds` consumes a stream
of such draws under explicit fuel.
-/

namespace PyDRP

/-- Chunk sizes used by `numpy.array_split(xs, k)`: the first `n % k`
chunks have size `n / k + 1`, the remaining ones size `n / k`. -/
def arraySplitSizes (n k : Nat) : List Nat :=
  (List.range k).map (fun i => n / k + if i < n % k then 1 else 0)

/-- Cut a list into consecutive chunks of the given sizes. -/
def splitBySizes : List Nat → List Nat → List (List Nat)
  | _, [] => []
  | xs, s :: ss => xs.take s :: splitBySizes (xs.drop s) ss

/-- Embedding of `numpy.array_split(xs, k)`. -/
def npArraySplit (xs : List Nat) (k : Nat) : List (List Nat) :=
  splitBySizes xs (arraySplitSizes xs.length k)

/-- Embedding of fancy indexing `elements[perm]`: the list whose `j`-th
entry is `elements[perm[j]]`. -/
def applyPerm (xs : List Nat) (perm : List Nat) : List Nat :=
  perm.map (fun i => xs.getD i 0)

/-- Embedding of `Splitter.get_partitions`: optionally reorder the
elements by the drawn permutation, then `np.array_split` them into `k`
folds. -/
def get_partitions (elements : List Nat) (k : Nat) (shuffle : Bool)
    (permDraw : List Nat) : List (List Nat) :=
  npArraySplit (if shuffle then applyPerm elements permDraw else elements) k

/-- Embedding of `test = np.arange(self.k)` in `Splitter.get_folds`. -/
def test_assignment (k : Nat) : List Nat := List.range k

/-- Embedding of the loop guard `(val != test).all()`: elementwise
disequality of the two arrays. -/
def valid_partition (val test : List Nat) : Bool :=
  (List.zipWith (fun a b => decide (a ≠ b)) val test).all id

/-- Embedding of the rejection loop of `Splitter.get_folds`: draw
permutations from the stream `draws` starting at position `i`, return the
first one that differs from `np.arange k` everywhere; `none` when the
fuel is exhausted before that happens. -/
def get_folds_loop (k : Nat) (draws : Nat → List Nat) :
    Nat → Nat → Option (List Nat)
  | _, 0 => none
  | i, fuel + 1 =>
      let val := draws i
      if valid_partition val (test_assignment k) then some val
      else get_folds_loop k draws (i + 1) fuel

/-- Embedding of `Splitter.get_folds`, starting the rejection loop at the
head of the draw stream. -/
def get_folds (k : Nat) (draws : Nat → List Nat) (fuel : Nat) :
    Option (List Nat) :=
  get_folds_loop k draws 0 fuel

/-- The data a fitted `Splitter` carries: fold count, exclusion list, the
element folds `self.splits`, and the two role arrays `self.test_folds`
and `self.val_folds`. -/
structure FitState where
  k : Nat
  exclude_from_test : List Nat
  splits : List (List Nat)
  test_folds : List Nat
  val_folds : List Nat
deriving DecidableEq

/-- Embedding of `Splitter.fit`: build the folds with `get_partitions`,
then the role arrays with `get_folds`; `none` when the rejection loop did
not terminate within the fuel. -/
def fit_splitter (elements : List Nat) (k : Nat) (E : List Nat)
    (shuffle : Bool) (permDraw : List Nat) (draws : Nat → List Nat)
    (fuel : Nat) : Option FitState :=
  match get_folds k draws fuel with
  | none => none
  | some val =>
      some ⟨k, E, get_partitions elements k shuffle permDraw,
            test_assignment k, val⟩

/-- Embedding of `Splitter.__getitem__` at the level of elements: the
first component is `training_idx`, the second `val_idx`, the third
`test_idx` (the test fold filtered by the exclusion list). -/
def getitem_elements (fs : FitState) (idx : Nat) :
    List Nat × List Nat × List Nat :=
  let v := fs.val_folds.getD idx 0
  let t := fs.test_folds.getD idx 0
  let train_folds :=
    (List.range fs.k).filter (fun i => decide (i ≠ v) && decide (i ≠ t))
  let training_idx := (train_folds.map (fun f => fs.splits.getD f [])).flatten
  let val_idx := fs.splits.getD v []
  let test_idx :=
    (fs.splits.getD t []).filter (fun el => decide (el ∉ fs.exclude_from_test))
  (training_idx, val_idx, test_idx)

/-- A row of the source table when a grouping column is configured:
`group` is the value of the partition column, `payload` stands for the
remaining columns and makes rows of the same group distinguishable. -/
structure Row where
  group : Nat
  payload : Nat
deriving DecidableEq

/-- Embedding of `self.data.query(f"{col} in @vals")`: the rows whose
grouping value lies in `vals`. -/
def query_in (data : List Row) (vals : List Nat) : List Row :=
  data.filter (fun r => decide (r.group ∈ vals))

/-- Embedding of the grouped branch of `Splitter.__getitem__`: each of
the three element sets is turned into the rows whose grouping value it
contains. -/
def getitem_grouped (data : List Row) (fs : FitState) (idx : Nat) :
    List Row × List Row × List Row :=
  let p := getitem_elements fs idx
  (query_in data p.1, query_in data p.2.1, query_in data p.2.2)

/-- A seed value as accepted by `numpy.random.default_rng`: either an
integer or a list of integers. -/
inductive PySeed where
  | int : Int → PySeed
  | list : List Nat → PySeed
deriving DecidableEq

/-- Configuration stored by `Splitter.__init__`. -/
structure SplitterCfg where
  k : Nat
  partition_column : Option String
  seed : PySeed
  exclude_from_test : List Nat
deriving DecidableEq

/-- Default of the `seed` parameter of `Splitter.__init__`. -/
def splitter_default_seed : PySeed := PySeed.int 3558

/-- Default of the `exclude_from_test` parameter of `Splitter.__init__`. -/
def splitter_default_exclude : List Nat := []

/-- Embedding of `Splitter.__init__` as a record of its parameters, in
their positional order `(data, k, partition_column, seed,
exclude_from_test)` with `data` abstracted away. -/
def splitter_init (k : Nat) (partition_column : Option String)
    (seed : PySeed) (exclude_from_test : List Nat) : SplitterCfg :=
  ⟨k, partition_column, seed, exclude_from_test⟩

/-- Embedding of the `Splitter` construction inside
`DatasetManager.__init__`: the call
`Splitter(self.processed_data, k, partition_column, exclude_from_test)`
passes the manager's `exclude_from_test` argument as the fourth
positional parameter, which is `seed`; `exclude_from_test` keeps its
default. -/
def dataset_manager_splitter (k : Nat) (partition_column : Option String)
    (exclude_from_test : List Nat) : SplitterCfg :=
  splitter_init k partition_column (PySeed.list exclude_from_test)
    splitter_default_exclude

/-- Embedding of `DatasetManager.get_partition`: fetch
`(train, val, test)` from the splitter, fit the target processor on the
train subset (`fitT train` is the fitted transform), and return the
transformed subsets in the order written in the source:
`(transform(train), transform(test), transform(val))`. -/
def get_partition (fitT : List Nat → List Nat → List Nat) (fs : FitState)
    (idx : Nat) : List Nat × List Nat × List Nat :=
  let p := getitem_elements fs idx
  (fitT p.1 p.1, fitT p.1 p.2.2, fitT p.1 p.2.1)

/-- Embedding of `diff_drugs = featurized_drugs.difference(input_drugs)`
in `DatasetManager.get_drugs`: the identifiers present in the computed
mapping but absent from the requested index. -/
def diff_drugs (featurized_drugs input_drugs : List Nat) : List Nat :=
  featurized_drugs.filter (fun d => decide (d ∉ input_drugs))

/-- Embedding of the warning decision in `DatasetManager.get_drugs`:
`some diff` when `len(diff_drugs) > 0` (a warning naming `diff` is
emitted), `none` otherwise. -/
def get_drugs_warning (drug_dict_keys smiles_index : List Nat) :
    Option (List Nat) :=
  let diff := diff_drugs drug_dict_keys smiles_index
  if 0 < diff.length then some diff else none

/-- State of a `TargetPipeline` after `__init__`, which sets
`self.fitted = False`. -/
structure TargetPipelineState where
  fitted : Bool
deriving DecidableEq

/-- A freshly constructed `TargetPipeline`. -/
def target_pipeline_initial : TargetPipelineState := ⟨false⟩

/-- Embedding of `TargetPipeline.transform`: the guard
`assert self.fitted, "You are trying to transform data using a
non-fitted processor"` followed by the overridden `self(x)`, here the
parameter `call`. -/
def tp_transform (call : List Nat → List Nat) (st : TargetPipelineState)
    (x : List Nat) : Except String (List Nat) :=
  if st.fitted then Except.ok (call x)
  else Except.error "You are trying to transform data using a non-fitted processor"

/-- The ordering flags of a `Splitter`: `partitioned` is set to `False`
in `__init__`; the attribute `fitted` is first assigned only inside
`get_partitions`, so before that it does not exist (`none`). -/
structure SplitterRuntime where
  partitioned : Bool
  fitted : Option Bool
deriving DecidableEq

/-- A freshly constructed `Splitter`. -/
def splitter_runtime_initial : SplitterRuntime := ⟨false, none⟩

/-- Both flags after `get_partitions` ran. -/
def splitter_runtime_partitioned : SplitterRuntime := ⟨true, some true⟩

/-- Embedding of the guard of `Splitter.__getitem__`:
`assert self.fitted, "You are trying to get splits before fitting the
splitter"`. Reading a missing attribute aborts while evaluating the
condition; a present `False` aborts through the assertion itself. -/
def splitter_getitem_check (st : SplitterRuntime) : Except String Unit :=
  match st.fitted with
  | none => Except.error "AttributeError: Splitter object has no attribute fitted"
  | some b =>
      if b then Except.ok ()
      else Except.error "You are trying to get splits before fitting the splitter"

/-- Embedding of the guard of `Splitter.get_folds`:
`assert self.partitioned, "The data was not partitioned yet"`. -/
def splitter_get_folds_check (st : SplitterRuntime) : Except String Unit :=
  if st.partitioned then Except.ok ()
  else Except.error "The data was not partitioned yet"

/-! ### Facts about the embedded `numpy.array_split` -/

lemma sum_sizes_aux (q r : Nat) :
    ∀ m, ((List.range m).map (fun i => q + if i < r then 1 else 0)).sum
      = m * q + min m r := by
  intro m
  induction m with
  | zero => simp
  | succ m ih =>
      rw [List.range_succ, List.map_append, List.sum_append, ih]
      rcases Nat.lt_or_ge m r with h | h
      · simp only [List.map_cons, List.map_nil, List.sum_cons, List.sum_nil,
          if_pos h, Nat.succ_mul]
        omega
      · have h' : ¬ m < r := Nat.not_lt.mpr h
        simp only [List.map_cons, List.map_nil, List.sum_cons, List.sum_nil,
          if_neg h', Nat.succ_mul]
        omega

lemma arraySplitSizes_sum (n k : Nat) (hk : 0 < k) :
    (arraySplitSizes n k).sum = n := by
  unfold arraySplitSizes
  rw [sum_sizes_aux]
  have h1 : n % k < k := Nat.mod_lt _ hk
  have h2 := Nat.div_add_mod n k
  omega

lemma arraySplitSizes_length (n k : Nat) :
    (arraySplitSizes n k).length = k := by
  simp [arraySplitSizes]

lemma splitBySizes_flatten :
    ∀ (ss xs : List Nat), (splitBySizes xs ss).flatten = xs.take ss.sum := by
  intro ss
  induction ss with
  | nil => intro xs; simp [splitBySizes]
  | cons s ss ih =>
      intro xs
      simp only [splitBySizes, List.flatten_cons, ih, List.sum_cons,
        List.take_add]

lemma splitBySizes_length :
    ∀ (ss xs : List Nat), (splitBySizes xs ss).length = ss.length := by
  intro ss
  induction ss with
  | nil => intro xs; simp [splitBySizes]
  | cons s ss ih => intro xs; simp [splitBySizes, ih]

lemma splitBySizes_map_length :
    ∀ (ss xs : List Nat), ss.sum ≤ xs.length →
      (splitBySizes xs ss).map List.length = ss := by
  intro ss
  induction ss with
  | nil => intro xs _; simp [splitBySizes]
  | cons s ss ih =>
      intro xs h
      rw [List.sum_cons] at h
      simp only [splitBySizes, List.map_cons]
      rw [List.length_take, ih (xs.drop s) (by simp [List.length_drop]; omega)]
      congr 1
      omega

lemma npArraySplit_length (xs : List Nat) (k : Nat) :
    (npArraySplit xs k).length = k := by
  rw [npArraySplit, splitBySizes_length, arraySplitSizes_length]

lemma npArraySplit_flatten (xs : List Nat) (k : Nat) (hk : 0 < k) :
    (npArraySplit xs k).flatten = xs := by
  rw [npArraySplit, splitBySizes_flatten, arraySplitSizes_sum _ _ hk,
    List.take_length]

lemma npArraySplit_map_length (xs : List Nat) (k : Nat) (hk : 0 < k) :
    (npArraySplit xs k).map List.length = arraySplitSizes xs.length k := by
  rw [npArraySplit, splitBySizes_map_length]
  rw [arraySplitSizes_sum _ _ hk]

/-! ### Facts about permutations and indexing -/

lemma range_map_getD {α : Type} (d : α) :
    ∀ (xs : List α), (List.range xs.length).map (fun i => xs.getD i d) = xs := by
  intro xs
  induction xs with
  | nil => simp
  | cons x xs ih =>
      have hc : ((fun i => (x :: xs).getD i d) ∘ Nat.succ)
          = fun i => xs.getD i d := by
        funext i
        simp [List.getD_cons_succ]
      rw [List.length_cons, List.range_succ_eq_map, List.map_cons,
        List.map_map, hc, ih, List.getD_cons_zero]

lemma range_getD (n i : Nat) (h : i < n) : (List.range n).getD i 0 = i := by
  rw [List.getD_eq_getElem?_getD, List.getElem?_range h]
  rfl

lemma applyPerm_perm (xs perm : List Nat)
    (h : List.Perm perm (List.range xs.length)) :
    List.Perm (applyPerm xs perm) xs := by
  unfold applyPerm
  have h2 := h.map (fun i => xs.getD i 0)
  rwa [range_map_getD] at h2

lemma get_partitions_flatten_perm (elements : List Nat) (k : Nat)
    (shuffle : Bool) (permDraw : List Nat) (hk : 0 < k)
    (hperm : shuffle = true → List.Perm permDraw (List.range elements.length)) :
    List.Perm (get_partitions elements k shuffle permDraw).flatten elements := by
  unfold get_partitions
  cases shuffle with
  | false => rw [if_neg (by simp), npArraySplit_flatten _ _ hk]
  | true =>
      rw [if_pos rfl, npArraySplit_flatten _ _ hk]
      exact applyPerm_perm _ _ (hperm rfl)

lemma perm_flatten_outer {L₁ L₂ : List (List Nat)} (h : List.Perm L₁ L₂) :
    List.Perm L₁.flatten L₂.flatten := by
  induction h with
  | nil => simp
  | cons x _ ih => simpa using ih.append_left x
  | swap x y l =>
      simp only [List.flatten_cons]
      have h1 := (@List.perm_append_comm _ y x).append_right l.flatten
      simpa [List.append_assoc] using h1
  | trans _ _ ih1 ih2 => exact ih1.trans ih2

lemma filter_one_perm (a : Nat) :
    ∀ (l : List Nat), l.Nodup → a ∈ l →
      List.Perm l (a :: l.filter (fun i => decide (i ≠ a))) := by
  intro l
  induction l with
  | nil => intro _ h; cases h
  | cons x xs ih =>
      intro hnd hmem
      rcases List.mem_cons.mp hmem with rfl | hx
      · have hnotin : a ∉ xs := (List.nodup_cons.mp hnd).1
        have hfe : xs.filter (fun i => decide (i ≠ a)) = xs := by
          apply List.filter_eq_self.mpr
          intro b hb
          simp only [decide_eq_true_eq]
          intro hba
          exact hnotin (hba ▸ hb)
        rw [List.filter_cons_of_neg (by simp), hfe]
      · have hxa : x ≠ a := by
          rintro rfl
          exact (List.nodup_cons.mp hnd).1 hx
        have ih2 := ih (List.nodup_cons.mp hnd).2 hx
        rw [List.filter_cons_of_pos (by simp [hxa])]
        exact (ih2.cons x).trans (List.Perm.swap a x _)

lemma filter_two_perm (v t : Nat) (l : List Nat) (hnd : l.Nodup)
    (hv : v ∈ l) (ht : t ∈ l) (hvt : v ≠ t) :
    List.Perm l
      (v :: t :: l.filter (fun i => decide (i ≠ v) && decide (i ≠ t))) := by
  have h1 := filter_one_perm v l hnd hv
  have hnd1 : (l.filter (fun i => decide (i ≠ v))).Nodup := hnd.filter _
  have ht1 : t ∈ l.filter (fun i => decide (i ≠ v)) :=
    List.mem_filter.mpr ⟨ht, by simp [Ne.symm hvt]⟩
  have h2 := filter_one_perm t _ hnd1 ht1
  have hff : (l.filter (fun i => decide (i ≠ v))).filter
        (fun i => decide (i ≠ t))
      = l.filter (fun i => decide (i ≠ v) && decide (i ≠ t)) := by
    rw [List.filter_filter]
    congr 1
    funext a
    exact Bool.and_comm _ _
  exact h1.trans ((hff ▸ h2).cons v)

/-! ### Facts about the rejection loop of `get_folds` -/

lemma get_folds_loop_some (k : Nat) (draws : Nat → List Nat) :
    ∀ (fuel i : Nat) {val : List Nat},
      get_folds_loop k draws i fuel = some val →
      (∃ j, val = draws j) ∧
        valid_partition val (test_assignment k) = true := by
  intro fuel
  induction fuel with
  | zero => intro i val h; simp [get_folds_loop] at h
  | succ fuel ih =>
      intro i val h
      rw [get_folds_loop] at h
      by_cases hv : valid_partition (draws i) (test_assignment k) = true
      · simp only [hv, if_true] at h
        cases h
        exact ⟨⟨i, rfl⟩, hv⟩
      · simp only [hv, if_false] at h
        exact ih (i + 1) h

lemma zip_ne_all :
    ∀ (val r : List Nat),
      (List.zipWith (fun a b => decide (a ≠ b)) val r).all id = true →
      ∀ i, i < val.length → i < r.length → val.getD i 0 ≠ r.getD i 0 := by
  intro val
  induction val with
  | nil => intro r _ i h; simp at h
  | cons x xs ih =>
      intro r hall i hi1 hi2
      cases r with
      | nil => simp at hi2
      | cons y ys =>
          rw [List.zipWith_cons_cons, List.all_cons, Bool.and_eq_true] at hall
          cases i with
          | zero =>
              simp only [List.getD_cons_zero]
              exact of_decide_eq_true hall.1
          | succ n =>
              simp only [List.getD_cons_succ]
              exact ih ys hall.2 n (by simpa using hi1) (by simpa using hi2)

lemma valid_partition_derangement (val : List Nat) (k : Nat)
    (hlen : val.length = k)
    (hv : valid_partition val (test_assignment k) = true) :
    ∀ i, i < k → val.getD i 0 ≠ i := by
  intro i hi
  have h := zip_ne_all val (List.range k) hv i (by omega)
    (by simpa using hi)
  rwa [range_getD _ _ hi] at h

lemma get_folds_some_spec (k fuel : Nat) (draws : Nat → List Nat)
    (val : List Nat) (hdraws : ∀ i, List.Perm (draws i) (List.range k))
    (hres : get_folds k draws fuel = some val) :
    List.Perm val (List.range k) ∧ (∀ i, i < k → val.getD i 0 ≠ i) := by
  obtain ⟨⟨j, rfl⟩, hvalid⟩ := get_folds_loop_some k draws fuel 0 hres
  refine ⟨hdraws j, ?_⟩
  exact valid_partition_derangement _ _
    (by simpa using (hdraws j).length_eq) hvalid

/-! ### The fold rearrangement performed by `__getitem__` -/

lemma getitem_fold_perm (fs : FitState) (idx : Nat)
    (hlen : fs.splits.length = fs.k)
    (htest : fs.test_folds = List.range fs.k)
    (hvperm : List.Perm fs.val_folds (List.range fs.k))
    (hnf : fs.val_folds.getD idx 0 ≠ idx)
    (hidx : idx < fs.k) :
    List.Perm
      ((getitem_elements fs idx).1 ++ (getitem_elements fs idx).2.1 ++
        fs.splits.getD idx [])
      fs.splits.flatten := by
  have hvlen : fs.val_folds.length = fs.k := by
    simpa using hvperm.length_eq
  have hvmem : fs.val_folds.getD idx 0 ∈ List.range fs.k := by
    apply hvperm.mem_iff.mp
    rw [List.getD_eq_getElem _ _ (by omega)]
    exact List.getElem_mem _
  have ht' : fs.test_folds.getD idx 0 = idx := by
    rw [htest, range_getD _ _ hidx]
  set v := fs.val_folds.getD idx 0 with hvdef
  have hsplit2 := filter_two_perm v idx (List.range fs.k)
    (List.nodup_range fs.k) hvmem (List.mem_range.mpr hidx) hnf
  -- range k ~ v :: idx :: train_folds
  have hmap := (hsplit2.map (fun f => fs.splits.getD f []))
  have hflat := perm_flatten_outer hmap
  have hleft : ((List.range fs.k).map (fun f => fs.splits.getD f [])).flatten
      = fs.splits.flatten := by
    have := range_map_getD ([] : List Nat) fs.splits
    rw [← hlen, this]
  rw [hleft] at hflat
  simp only [getitem_elements, ht']
  refine List.Perm.trans ?_ hflat.symm
  simp only [List.map_cons, List.flatten_cons]
  have hassoc :
      ∀ (A B C : List Nat), List.Perm (A ++ B ++ C) (B ++ (C ++ A)) := by
    intro A B C
    rw [List.append_assoc]
    have h2 := @List.perm_append_comm _ A (B ++ C)
    simpa [List.append_assoc] using h2
  exact hassoc _ _ _

lemma getitem_test_subset (fs : FitState) (idx : Nat) :
    ∀ a, a ∈ (getitem_elements fs idx).2.2 →
      a ∈ fs.splits.getD (fs.test_folds.getD idx 0) [] := by
  intro a ha
  simp only [getitem_elements] at ha
  exact (List.mem_filter.mp ha).1

lemma getitem_test_not_excluded (fs : FitState) (idx : Nat) :
    ∀ a, a ∈ (getitem_elements fs idx).2.2 → a ∉ fs.exclude_from_test := by
  intro a ha
  simp only [getitem_elements] at ha
  exact of_decide_eq_true (List.mem_filter.mp ha).2

/-- Fold sizes differ by at most one: every entry of the list is at most
one more than every other entry. -/
def sizes_within_one (l : List Nat) : Bool :=
  l.all (fun a => l.all (fun b => decide (a ≤ b + 1)))

lemma arraySplitSizes_within_one (n k : Nat) :
    sizes_within_one (arraySplitSizes n k) = true := by
  unfold sizes_within_one arraySplitSizes
  rw [List.all_eq_true]
  intro a ha
  rw [List.all_eq_true]
  intro b hb
  obtain ⟨i, _, rfl⟩ := List.mem_map.mp ha
  obtain ⟨j, _, rfl⟩ := List.mem_map.mp hb
  simp only [decide_eq_true_eq]
  split_ifs <;> omega

/-! ### Claim theorems -/

/-- C1: for every fitted `Splitter` (a successful `fit`, i.e.
`get_partitions` followed by `get_folds`) over a duplicate-free element
set and every run index `idx < k`, the train, validation and test
element subsets returned by `__getitem__` are pairwise disjoint, and the
union of train, validation and the test fold before the exclusion filter
is a permutation of the full element set. -/
theorem splitter_run_partition_invariant
    (elements : List Nat) (k : Nat) (E : List Nat) (shuffle : Bool)
    (permDraw : List Nat) (draws : Nat → List Nat) (fuel : Nat)
    (fs : FitState) (idx : Nat)
    (hnd : elements.Nodup)
    (hperm : shuffle = true → List.Perm permDraw (List.range elements.length))
    (hdraws : ∀ i, List.Perm (draws i) (List.range k))
    (hfit : fit_splitter elements k E shuffle permDraw draws fuel = some fs)
    (hidx : idx < k) :
    List.Disjoint (getitem_elements fs idx).1 (getitem_elements fs idx).2.1 ∧
    List.Disjoint (getitem_elements fs idx).1 (getitem_elements fs idx).2.2 ∧
    List.Disjoint (getitem_elements fs idx).2.1 (getitem_elements fs idx).2.2 ∧
    List.Perm
      ((getitem_elements fs idx).1 ++ (getitem_elements fs idx).2.1 ++
        fs.splits.getD idx [])
      elements := by
  unfold fit_splitter at hfit
  cases hres : get_folds k draws fuel with
  | none => rw [hres] at hfit; cases hfit
  | some val =>
      rw [hres] at hfit
      cases hfit
      obtain ⟨hvperm, hnf⟩ := get_folds_some_spec k fuel draws val hdraws hres
      have hk : 0 < k := by omega
      have hflat := get_partitions_flatten_perm elements k shuffle permDraw hk hperm
      have hlen : (get_partitions elements k shuffle permDraw).length = k := by
        unfold get_partitions
        rw [npArraySplit_length]
      have hmain := getitem_fold_perm
        ⟨k, E, get_partitions elements k shuffle permDraw,
          test_assignment k, val⟩ idx hlen rfl hvperm (hnf idx hidx) hidx
      have hunion := hmain.trans hflat
      have hnd2 := hunion.nodup_iff.mpr hnd
      rcases List.nodup_append.mp hnd2 with ⟨hndAB, hndC, hdisABC⟩
      rcases List.nodup_append.mp hndAB with ⟨hndA, hndB, hdisAB⟩
      have htsub := getitem_test_subset
        ⟨k, E, get_partitions elements k shuffle permDraw,
          test_assignment k, val⟩ idx
      have htfold :
          (test_assignment k).getD idx 0 = idx := range_getD _ _ hidx
      refine ⟨hdisAB, ?_, ?_, hunion⟩
      · intro a ha hb
        have hc := htsub a hb
        rw [htfold] at hc
        exact hdisABC (List.mem_append.mpr (Or.inl ha)) hc
      · intro a ha hb
        have hc := htsub a hb
        rw [htfold] at hc
        exact hdisABC (List.mem_append.mpr (Or.inr ha)) hc

/-- Witness for C1 at a concrete fitted splitter: elements 0..5, k = 3,
derangement draw `[1, 2, 0]`, run index 0. -/
theorem splitter_run_partition_invariant_witness :
    List.Disjoint
      (getitem_elements ⟨3, [], [[0, 1], [2, 3], [4, 5]], [0, 1, 2], [1, 2, 0]⟩ 0).1
      (getitem_elements ⟨3, [], [[0, 1], [2, 3], [4, 5]], [0, 1, 2], [1, 2, 0]⟩ 0).2.1 ∧
    List.Disjoint
      (getitem_elements ⟨3, [], [[0, 1], [2, 3], [4, 5]], [0, 1, 2], [1, 2, 0]⟩ 0).1
      (getitem_elements ⟨3, [], [[0, 1], [2, 3], [4, 5]], [0, 1, 2], [1, 2, 0]⟩ 0).2.2 ∧
    List.Disjoint
      (getitem_elements ⟨3, [], [[0, 1], [2, 3], [4, 5]], [0, 1, 2], [1, 2, 0]⟩ 0).2.1
      (getitem_elements ⟨3, [], [[0, 1], [2, 3], [4, 5]], [0, 1, 2], [1, 2, 0]⟩ 0).2.2 ∧
    List.Perm
      ((getitem_elements ⟨3, [], [[0, 1], [2, 3], [4, 5]], [0, 1, 2], [1, 2, 0]⟩ 0).1 ++
        (getitem_elements ⟨3, [], [[0, 1], [2, 3], [4, 5]], [0, 1, 2], [1, 2, 0]⟩ 0).2.1 ++
        (FitState.mk 3 [] [[0, 1], [2, 3], [4, 5]] [0, 1, 2] [1, 2, 0]).splits.getD 0 [])
      [0, 1, 2, 3, 4, 5] :=
  splitter_run_partition_invariant [0, 1, 2, 3, 4, 5] 3 [] false []
    (fun _ => [1, 2, 0]) 1
    ⟨3, [], [[0, 1], [2, 3], [4, 5]], [0, 1, 2], [1, 2, 0]⟩ 0
    (by decide) (by decide)
    (fun _ => (by decide : List.Perm [1, 2, 0] (List.range 3)))
    (by decide) (by decide)

/-- C2: for a duplicate-free element sequence, any fold count
`0 < k ≤ n`, any seed (modelled by an arbitrary permutation draw) and
either shuffle setting, `get_partitions` yields `k` folds whose
concatenation is a permutation of the elements (union is the full set),
which are pairwise disjoint, whose sizes are exactly
`n / k + 1` for the first `n % k` folds and `n / k` for the later ones,
and whose sizes differ pairwise by at most one. -/
theorem get_partitions_exact_partition
    (elements : List Nat) (k : Nat) (shuffle : Bool) (permDraw : List Nat)
    (hnd : elements.Nodup) (hk : 0 < k) (_hkn : k ≤ elements.length)
    (hperm : shuffle = true → List.Perm permDraw (List.range elements.length)) :
    (get_partitions elements k shuffle permDraw).length = k ∧
    List.Perm (get_partitions elements k shuffle permDraw).flatten elements ∧
    List.Pairwise List.Disjoint (get_partitions elements k shuffle permDraw) ∧
    (get_partitions elements k shuffle permDraw).map List.length
      = arraySplitSizes elements.length k ∧
    sizes_within_one
      ((get_partitions elements k shuffle permDraw).map List.length) = true := by
  have hflat := get_partitions_flatten_perm elements k shuffle permDraw hk hperm
  have hslen :
      (if shuffle then applyPerm elements permDraw else elements).length
        = elements.length := by
    cases shuffle with
    | false => simp
    | true =>
        simp only [if_pos rfl, applyPerm, List.length_map]
        have := (hperm rfl).length_eq
        simpa using this
  have hmaplen :
      (get_partitions elements k shuffle permDraw).map List.length
        = arraySplitSizes elements.length k := by
    unfold get_partitions
    rw [npArraySplit_map_length _ _ hk, hslen]
  refine ⟨?_, hflat, ?_, hmaplen, ?_⟩
  · unfold get_partitions
    rw [npArraySplit_length]
  · have hndf := hflat.nodup_iff.mpr hnd
    exact (List.nodup_flatten.mp hndf).2
  · rw [hmaplen]
    exact arraySplitSizes_within_one _ _

/-- Witness for C2: five elements, two folds, shuffle on, reversing
permutation draw. -/
theorem get_partitions_exact_partition_witness :
    (get_partitions [10, 11, 12, 13, 14] 2 true [4, 3, 2, 1, 0]).length = 2 ∧
    List.Perm (get_partitions [10, 11, 12, 13, 14] 2 true [4, 3, 2, 1, 0]).flatten
      [10, 11, 12, 13, 14] ∧
    List.Pairwise List.Disjoint
      (get_partitions [10, 11, 12, 13, 14] 2 true [4, 3, 2, 1, 0]) ∧
    (get_partitions [10, 11, 12, 13, 14] 2 true [4, 3, 2, 1, 0]).map List.length
      = arraySplitSizes 5 2 ∧
    sizes_within_one
      ((get_partitions [10, 11, 12, 13, 14] 2 true [4, 3, 2, 1, 0]).map
        List.length) = true :=
  get_partitions_exact_partition [10, 11, 12, 13, 14] 2 true [4, 3, 2, 1, 0]
    (by decide) (by decide) (by decide)
    (fun _ => (by decide : List.Perm [4, 3, 2, 1, 0] (List.range 5)))

/-- C3: whenever the rejection loop of `get_folds` returns a role
assignment, the test assignment is the identity (`test[i] = i` for every
`i < k`) and the returned `val` is a permutation of `[0, k)` with no
fixed point (`val[i] ≠ i` for every `i < k`); in particular this holds
for every `k ≥ 2` and every draw stream on which the loop terminates. -/
theorem get_folds_identity_and_derangement (k fuel : Nat)
    (draws : Nat → List Nat) (val : List Nat)
    (hdraws : ∀ i, List.Perm (draws i) (List.range k))
    (hres : get_folds k draws fuel = some val) :
    (∀ i, i < k → (test_assignment k).getD i 0 = i) ∧
    List.Perm val (List.range k) ∧
    (∀ i, i < k → val.getD i 0 ≠ i) := by
  obtain ⟨hperm, hnf⟩ := get_folds_some_spec k fuel draws val hdraws hres
  exact ⟨fun i hi => range_getD _ _ hi, hperm, hnf⟩

/-- Witness for C3 at `k = 2` with the constant draw `[1, 0]`. -/
theorem get_folds_identity_and_derangement_witness :
    (∀ i, i < 2 → (test_assignment 2).getD i 0 = i) ∧
    List.Perm [1, 0] (List.range 2) ∧
    (∀ i, i < 2 → ([1, 0] : List Nat).getD i 0 ≠ i) :=
  get_folds_identity_and_derangement 2 1 (fun _ => [1, 0]) [1, 0]
    (fun _ => (by decide : List.Perm [1, 0] (List.range 2)))
    (by decide)

/-- C9 counterexample: for `k = 1` the construction does not fail fast
with a configuration error; the rejection loop simply never succeeds.
With the only possible permutation draw `[0]`, one hundred iterations of
the loop still produce no assignment and no error is ever signalled. -/
theorem get_folds_k1_no_failfast :
    get_folds 1 (fun _ => [0]) 100 = none := by decide

/-- C9 amended: for `k = 1` no draw can satisfy the no-fixed-point
check, so the rejection loop of `get_folds` never terminates (it returns
nothing for every fuel bound and every starting position), rather than
failing fast with a configuration error. -/
theorem get_folds_k1_never_terminates (draws : Nat → List Nat)
    (hdraws : ∀ j, List.Perm (draws j) (List.range 1)) :
    ∀ (fuel i : Nat), get_folds_loop 1 draws i fuel = none := by
  intro fuel
  induction fuel with
  | zero => intro i; rfl
  | succ fuel ih =>
      intro i
      rw [get_folds_loop]
      have hdraw : draws i = [0] := by
        have h := hdraws i
        have hr : List.range 1 = [0] := by decide
        rw [hr] at h
        exact List.perm_singleton.mp h
      have hval : valid_partition (draws i) (test_assignment 1) = false := by
        rw [hdraw]
        decide
      rw [hval]
      simp only [Bool.false_eq_true, if_false]
      exact ih (i + 1)

/-- Witness for the amended C9: with the constant draw `[0]`, five
iterations starting at the head of the stream produce nothing. -/
theorem get_folds_k1_never_terminates_witness :
    get_folds_loop 1 (fun _ => [0]) 0 5 = none :=
  get_folds_k1_never_terminates (fun _ => [0])
    (fun _ => (by decide : List.Perm [0] (List.range 1))) 5 0

/-- A concrete fitted splitter used to show that excluded elements still
reach the train and validation subsets: three singleton folds, exclusion
list `[1, 2]`, identity test assignment and derangement `[1, 2, 0]`. -/
def exclusion_demo_fs : FitState :=
  ⟨3, [1, 2], [[0], [1], [2]], [0, 1, 2], [1, 2, 0]⟩

/-- C4: no element of the exclusion list ever appears in the test subset
returned by `__getitem__`, while excluded elements can still appear in
the train subset and in the validation subset (shown on
`exclusion_demo_fs`, where excluded element 2 is in train and excluded
element 1 is in validation). -/
theorem splitter_exclusion_law :
    (∀ (fs : FitState) (idx el : Nat),
        el ∈ (getitem_elements fs idx).2.2 → el ∉ fs.exclude_from_test) ∧
    (2 ∈ exclusion_demo_fs.exclude_from_test ∧
      2 ∈ (getitem_elements exclusion_demo_fs 0).1 ∧
      1 ∈ exclusion_demo_fs.exclude_from_test ∧
      1 ∈ (getitem_elements exclusion_demo_fs 0).2.1) :=
  ⟨fun fs idx el => getitem_test_not_excluded fs idx el, by decide⟩

/-- Witness for C4: element 0 lies in the test subset of
`exclusion_demo_fs` and is therefore not in its exclusion list. -/
theorem splitter_exclusion_law_witness :
    (0 : Nat) ∉ exclusion_demo_fs.exclude_from_test :=
  splitter_exclusion_law.1 exclusion_demo_fs 0 0 (by decide)

lemma mem_query_in (data : List Row) (vals : List Nat) (r : Row) :
    r ∈ query_in data vals ↔ r ∈ data ∧ r.group ∈ vals := by
  unfold query_in
  rw [List.mem_filter]
  simp

/-- C6: with a grouping column configured, any two rows of the table
sharing the same grouping value belong to the same subsets in any run:
each of the train, validation and test row subsets contains either both
rows or neither, so no group straddles two roles. -/
theorem splitter_grouping_law (data : List Row) (fs : FitState) (idx : Nat)
    (r1 r2 : Row) (h1 : r1 ∈ data) (h2 : r2 ∈ data)
    (hg : r1.group = r2.group) :
    ((r1 ∈ (getitem_grouped data fs idx).1 ↔
        r2 ∈ (getitem_grouped data fs idx).1) ∧
      (r1 ∈ (getitem_grouped data fs idx).2.1 ↔
        r2 ∈ (getitem_grouped data fs idx).2.1) ∧
      (r1 ∈ (getitem_grouped data fs idx).2.2 ↔
        r2 ∈ (getitem_grouped data fs idx).2.2)) := by
  simp only [getitem_grouped]
  refine ⟨?_, ?_, ?_⟩ <;>
    · rw [mem_query_in, mem_query_in, hg]
      simp [h1, h2]

/-- Witness for C6: two rows with grouping value 5 and distinct payloads
in a two-row table. -/
theorem splitter_grouping_law_witness :
    ((Row.mk 5 0 ∈ (getitem_grouped [Row.mk 5 0, Row.mk 5 1] exclusion_demo_fs 0).1 ↔
        Row.mk 5 1 ∈ (getitem_grouped [Row.mk 5 0, Row.mk 5 1] exclusion_demo_fs 0).1) ∧
      (Row.mk 5 0 ∈ (getitem_grouped [Row.mk 5 0, Row.mk 5 1] exclusion_demo_fs 0).2.1 ↔
        Row.mk 5 1 ∈ (getitem_grouped [Row.mk 5 0, Row.mk 5 1] exclusion_demo_fs 0).2.1) ∧
      (Row.mk 5 0 ∈ (getitem_grouped [Row.mk 5 0, Row.mk 5 1] exclusion_demo_fs 0).2.2 ↔
        Row.mk 5 1 ∈ (getitem_grouped [Row.mk 5 0, Row.mk 5 1] exclusion_demo_fs 0).2.2)) :=
  splitter_grouping_law [Row.mk 5 0, Row.mk 5 1] exclusion_demo_fs 0
    (Row.mk 5 0) (Row.mk 5 1) (by decide) (by decide) (by decide)

/-- C5: the `Splitter` built inside `DatasetManager.__init__` receives
the manager's `exclude_from_test` argument in the positional `seed`
slot: its `exclude_from_test` field is the empty default, its `seed`
field is the exclusion list itself and not the documented default
`3558`; and with an empty exclusion list the test subset of any run is
the whole test fold, so nothing is removed from test subsets obtained
through the manager. -/
theorem dataset_manager_seed_misconfiguration (k : Nat)
    (pcol : Option String) (E : List Nat) :
    (dataset_manager_splitter k pcol E).exclude_from_test
      = splitter_default_exclude ∧
    (dataset_manager_splitter k pcol E).seed = PySeed.list E ∧
    (dataset_manager_splitter k pcol E).seed ≠ splitter_default_seed ∧
    (∀ (kk : Nat) (splits : List (List Nat)) (tf vf : List Nat) (idx : Nat),
      (getitem_elements ⟨kk, splitter_default_exclude, splits, tf, vf⟩ idx).2.2
        = splits.getD (tf.getD idx 0) []) := by
  refine ⟨rfl, rfl, fun h => PySeed.noConfusion h, ?_⟩
  intro kk splits tf vf idx
  simp only [getitem_elements]
  apply List.filter_eq_self.mpr
  intro a _
  simp [splitter_default_exclude]

/-- Witness for C5 at `k = 25`, no partition column, exclusion argument
`[7]`. -/
theorem dataset_manager_seed_misconfiguration_witness :
    (dataset_manager_splitter 25 none [7]).exclude_from_test
      = splitter_default_exclude ∧
    (dataset_manager_splitter 25 none [7]).seed = PySeed.list [7] ∧
    (dataset_manager_splitter 25 none [7]).seed ≠ splitter_default_seed ∧
    (∀ (kk : Nat) (splits : List (List Nat)) (tf vf : List Nat) (idx : Nat),
      (getitem_elements ⟨kk, splitter_default_exclude, splits, tf, vf⟩ idx).2.2
        = splits.getD (tf.getD idx 0) []) :=
  dataset_manager_seed_misconfiguration 25 none [7]

/-- Modelled from the spec: the reconciliation difference §4.5 asks for,
namely requested identifiers minus the mapping's identifiers (the
identifiers that could not be featurized). -/
def spec_unreachable_identifiers (requested mapping_keys : List Nat) :
    List Nat :=
  requested.filter (fun d => decide (d ∉ mapping_keys))

/-- C7 (code bug): with requested identifiers `[1, 2]` and a mapping
covering only `[1]`, the code computes
`featurized.difference(requested) = []` and emits no warning, although
identifier 2 is unreachable and the spec-mandated difference
`requested − mapping` is `[2]`. -/
theorem get_drugs_reconciliation_code_bug :
    get_drugs_warning [1] [1, 2] = none ∧
    diff_drugs [1] [1, 2] = [] ∧
    spec_unreachable_identifiers [1, 2] [1] = [2] := by decide

/-- C8: each precondition violation aborts with an error rather than
returning a value: `transform` before `fit` on a target pipeline stops
at its assertion, indexing a fresh `Splitter` stops while evaluating the
assertion of `__getitem__` (the `fitted` attribute does not exist yet),
and `get_folds` before `get_partitions` stops at its assertion. -/
theorem precondition_violations_abort (call : List Nat → List Nat)
    (x : List Nat) :
    tp_transform call target_pipeline_initial x
      = Except.error
          "You are trying to transform data using a non-fitted processor" ∧
    splitter_getitem_check splitter_runtime_initial
      = Except.error
          "AttributeError: Splitter object has no attribute fitted" ∧
    splitter_get_folds_check splitter_runtime_initial
      = Except.error "The data was not partitioned yet" :=
  ⟨rfl, rfl, rfl⟩

/-- C10: `DatasetManager.get_partition` returns the transformed subsets
in the order (train, test, validation): its second component is the
transformed test subset of the splitter and its third component the
transformed validation subset, the reverse of the splitter's
(train, validation, test) order. -/
theorem get_partition_returns_train_test_val
    (fitT : List Nat → List Nat → List Nat) (fs : FitState) (idx : Nat) :
    get_partition fitT fs idx
      = (fitT (getitem_elements fs idx).1 (getitem_elements fs idx).1,
          fitT (getitem_elements fs idx).1 (getitem_elements fs idx).2.2,
          fitT (getitem_elements fs idx).1 (getitem_elements fs idx).2.1) :=
  rfl

end PyDRP
